import Mathlib

/-!
Verification of the issue-fixer pipeline (`src/issue_fixer.py`).

The program text is shallowly embedded over `List Char` / `String`:
pure text transformations become Lean functions, the provider loop and
the submission workflow become functions over explicit outcome oracles,
and the process-level behaviour (startup checks, network activity) is
modelled as explicit state threaded through total functions.
-/

namespace IssueFixer

/-! ## Basic string kit (Python-string semantics on `List Char`) -/

/-- `startsW pat cs` is `str.startswith(pat)` on char lists. -/
def startsW : List Char → List Char → Bool
  | [], _ => true
  | _ :: _, [] => false
  | p :: ps, c :: cs => p == c && startsW ps cs

/-- `containsSub cs pat` is Python's `pat in cs` substring test. -/
def containsSub (cs pat : List Char) : Bool :=
  match cs with
  | [] => pat.isEmpty
  | _ :: t => startsW pat cs || containsSub t pat

/-- `hasNl cs` is true when `cs` contains a newline character. -/
def hasNl : List Char → Bool
  | [] => false
  | c :: t => c == '\n' || hasNl t

/-- Drop everything up to and including the first newline. -/
def dropToNl : List Char → List Char
  | [] => []
  | c :: t => if c == '\n' then t else dropToNl t

/-- Python `str.splitlines()` restricted to `'\n'` boundaries:
splits on newlines and drops a final empty piece produced by a
trailing newline (`"a\n"` gives `["a"]`, `""` gives `[]`). -/
def splitLinesAux : List Char → List Char → List (List Char)
  | [], acc => [acc.reverse]
  | ['\n'], acc => [acc.reverse]
  | '\n' :: t, acc => acc.reverse :: splitLinesAux t []
  | c :: t, acc => splitLinesAux t (c :: acc)

/-- Python `splitlines` (newline boundaries only). -/
def splitLinesL (cs : List Char) : List (List Char) :=
  match cs with
  | [] => []
  | _ => splitLinesAux cs []

/-- `'\n'.join(lines)`. -/
def joinNl : List (List Char) → List Char
  | [] => []
  | [l] => l
  | l :: ls => l ++ '\n' :: joinNl ls

/-- Split into line segments, each keeping its terminating newline
(the final segment may lack one). -/
def splitKeepNlAux : List Char → List Char → List (List Char)
  | [], [] => []
  | [], acc => [acc.reverse]
  | '\n' :: t, acc => (acc.reverse ++ ['\n']) :: splitKeepNlAux t []
  | c :: t, acc => splitKeepNlAux t (c :: acc)

def splitKeepNl (cs : List Char) : List (List Char) :=
  splitKeepNlAux cs []

def concatAll : List (List Char) → List Char
  | [] => []
  | l :: ls => l ++ concatAll ls

/-- The whitespace characters stripped by Python `str.strip()`
(ASCII subset, which is all this program ever produces). -/
def isPyWs (c : Char) : Bool :=
  c == ' ' || c == '\t' || c == '\n' || c == '\r' || c == '\x0b' || c == '\x0c'

/-- Python `str.strip()`. -/
def pyStripL (cs : List Char) : List Char :=
  ((cs.dropWhile isPyWs).reverse.dropWhile isPyWs).reverse

/-- Suffix of `cs` after the first occurrence of `pat`, if any. -/
def afterFirst (pat : List Char) : List Char → Option (List Char)
  | [] => none
  | c :: t => if startsW pat (c :: t) then some ((c :: t).drop pat.length) else afterFirst pat t

/-! ## The cleanup pipeline (`ai_fix_code`, src lines 113-125)

Each step embeds one `re.sub` of the source, with the regex semantics
(anchoring, laziness, scan-and-continue) spelled out as a direct
function on char lists. -/

/-- `re.sub(r'^PRE.*?\n', 'REPL\n', content, 1)` (no MULTILINE): when
the text starts with `pre` and contains a newline, the whole first line
is replaced by `repl`; otherwise the text is unchanged
(src lines 114-115). -/
def subHeaderLine (pre repl cs : List Char) : List Char :=
  if startsW pre cs && hasNl cs then repl ++ '\n' :: dropToNl cs else cs

/-- Both header rewrites of the cleanup pipeline, in source order:
line 114 rewrites a leading `+++ b/...` line to `+++ b/README.md`,
then line 115 rewrites a leading `--- a/...` line to `--- a/README.md`. -/
def headerRewriteL (cs : List Char) : List Char :=
  subHeaderLine "--- a/".toList "--- a/README.md".toList
    (subHeaderLine "+++ b/".toList "+++ b/README.md".toList cs)

/-- `re.sub(r'\+\+\+\+', '+++', content)` (src line 116): left-to-right
scan replacing each non-overlapping `++++` by `+++` and continuing
after the replaced text. -/
def collapsePlus : List Char → List Char
  | '+' :: '+' :: '+' :: '+' :: t => '+' :: '+' :: '+' :: collapsePlus t
  | c :: t => c :: collapsePlus t
  | [] => []

/-- `re.sub(r'^```(diff)?\n|```$', '', content, flags=re.MULTILINE)`
(src line 117).  The boolean argument records whether the scan position
is at a line start (for the MULTILINE `^`); the alternation prefers the
line-start branch, which also consumes the newline, while the `` ```$ ``
branch consumes only the three backticks. -/
def stripFences : Bool → List Char → List Char
  | true, '`' :: '`' :: '`' :: 'd' :: 'i' :: 'f' :: 'f' :: '\n' :: t => stripFences true t
  | true, '`' :: '`' :: '`' :: '\n' :: t => stripFences true t
  | _, '`' :: '`' :: '`' :: '\n' :: t => '\n' :: stripFences true t
  | _, ['`', '`', '`'] => []
  | _, c :: t => c :: stripFences (c == '\n') t
  | _, [] => []

/-- A line segment removed by src line 118: it starts with one of the
version-control metadata markers and carries its terminating newline
(the regex `^diff --git.*\n|^index.*\n|^new file mode.*\n` requires
the newline, so an unterminated final line survives). -/
def isVcsMetaLine (l : List Char) : Bool :=
  (startsW "diff --git".toList l || startsW "index".toList l ||
      startsW "new file mode".toList l) &&
    (match l.getLast? with
     | some c => c == '\n'
     | none => false)

/-- `re.sub(r'^diff --git.*\n|^index.*\n|^new file mode.*\n', '', content, flags=re.MULTILINE)`
(src line 118). -/
def stripVcsMetaL (cs : List Char) : List Char :=
  concatAll ((splitKeepNl cs).filter (fun l => !isVcsMetaLine l))

/-- Fuel-driven scan for
`re.sub(r'```(bash|python|md)\n.*?\n```', '', content, flags=re.DOTALL)`
(src line 119).  At an opening tag the lazy body ends at the first
`` \n``` `` occurrence; if no such closer exists in the remainder then no
further match is possible anywhere, so the rest of the text is kept.
One unit of fuel is spent per scan step; since each step consumes at
least one character, `cs.length` fuel always suffices. -/
def stripLangFenceFuel : Nat → List Char → List Char
  | 0, cs => cs
  | fuel + 1, cs =>
    match cs with
    | '`' :: '`' :: '`' :: 'b' :: 'a' :: 's' :: 'h' :: '\n' :: t =>
      match afterFirst "\n```".toList t with
      | some r => stripLangFenceFuel fuel r
      | none => cs
    | '`' :: '`' :: '`' :: 'p' :: 'y' :: 't' :: 'h' :: 'o' :: 'n' :: '\n' :: t =>
      match afterFirst "\n```".toList t with
      | some r => stripLangFenceFuel fuel r
      | none => cs
    | '`' :: '`' :: '`' :: 'm' :: 'd' :: '\n' :: t =>
      match afterFirst "\n```".toList t with
      | some r => stripLangFenceFuel fuel r
      | none => cs
    | c :: t => c :: stripLangFenceFuel fuel t
    | [] => []

def stripLangFenceL (cs : List Char) : List Char :=
  stripLangFenceFuel cs.length cs

/-- `re.sub(r'--- /dev/null\n', '', content)` (src line 120): global
literal removal, continuing after each removed occurrence. -/
def removeDevNullL : List Char → List Char
  | '-' :: '-' :: '-' :: ' ' :: '/' :: 'd' :: 'e' :: 'v' :: '/' :: 'n' :: 'u' :: 'l' :: 'l' :: '\n' :: t =>
    removeDevNullL t
  | c :: t => c :: removeDevNullL t
  | [] => []

def hasProseWord (cs : List Char) : Bool :=
  containsSub cs "Note".toList || containsSub cs "This".toList ||
    containsSub cs "See".toList || containsSub cs "Here".toList

/-- `re.sub(r'\.\.\.$|\n.*?(Note|This|See|Here).*', '', content, flags=re.DOTALL)`
(src line 121, no MULTILINE): `...` is removed only right at the end of
the text (optionally before a final newline); otherwise, at the first
newline that is followed anywhere later by one of the four prose words,
the DOTALL `.*` swallows everything from that newline to the end. -/
def stripTrailingProseL : List Char → List Char
  | ['.', '.', '.'] => []
  | ['.', '.', '.', '\n'] => ['\n']
  | '\n' :: t => if hasProseWord t then [] else '\n' :: stripTrailingProseL t
  | c :: t => c :: stripTrailingProseL t
  | [] => []

/-- A line dropped by the final comprehension filter (src lines 122-124):
it starts with one of the discourse markers, or strips to an empty or
fence-only line. -/
def isFilteredLine (l : List Char) : Bool :=
  startsW ['#'] l || startsW "Here is".toList l || startsW "Since".toList l ||
    startsW "Let".toList l || startsW "Or".toList l || startsW "And".toList l ||
    startsW [':'] l || startsW ['!'] l ||
    pyStripL l == "```".toList || pyStripL l == ([] : List Char)

/-- `re.match(r'--- a/.*\n.*\n--- a/', content, flags=re.DOTALL)`
(src line 125): the whole text starts with `--- a/` and, after some
newline, a later newline is immediately followed by another `--- a/`.
Note the source tests `content`, not the individual line, so when this
matches every line of the comprehension is dropped. -/
def multiFileRematch (cs : List Char) : Bool :=
  startsW "--- a/".toList cs &&
    (match afterFirst ['\n'] (cs.drop 6) with
     | some r => containsSub r "\n--- a/".toList
     | none => false)

/-- The line-comprehension filter of src lines 122-125. -/
def lineFilterL (cs : List Char) : List Char :=
  joinNl ((splitLinesL cs).filter (fun l => !isFilteredLine l && !multiFileRematch cs))

/-- The ordered cleanup pipeline applied to raw provider output
(src lines 113-125), i.e. the Patch Normalizer. -/
def cleanPatchL (raw : List Char) : List Char :=
  let c2 := headerRewriteL raw
  let c3 := collapsePlus c2
  let c4 := pyStripL (stripFences true c3)
  let c5 := stripVcsMetaL c4
  let c6 := stripLangFenceL c5
  let c7 := removeDevNullL c6
  let c8 := stripTrailingProseL c7
  lineFilterL c8

/-- String-level normalizer. -/
def cleanPatch (s : String) : String :=
  (cleanPatchL s.toList).asString

/-- String-level header-rewrite step (step 1 of the normalizer,
src lines 114-115). -/
def headerRewrite (s : String) : String :=
  (headerRewriteL s.toList).asString

/-! ## Patch validation (`ai_fix_code`, src lines 131-138) -/

/-- `\d+` followed by the rest: at least one digit, consuming the
maximal digit run (the characters after each `\d+` in the hunk regex
are non-digits, so maximal munch is exact). -/
def digitTail (cs : List Char) : Option (List Char) :=
  match cs with
  | c :: t => if c.isDigit then some (t.dropWhile Char.isDigit) else none
  | [] => none

/-- The part of the hunk-header regex after `@@ -`:
`\d+,\d+ \+\d+,\d+ @@` as a prefix match. -/
def afterHunkDigits (r1 : List Char) : Bool :=
  match digitTail r1 with
  | some (',' :: r2) =>
    match digitTail r2 with
    | some (' ' :: '+' :: r3) =>
      match digitTail r3 with
      | some (',' :: r4) =>
        match digitTail r4 with
        | some (' ' :: '@' :: '@' :: _) => true
        | _ => false
      | _ => false
    | _ => false
  | _ => false

/-- `re.match(r'@@ -\d+,\d+ \+\d+,\d+ @@', line)` (src line 135):
anchored at the start of the line only, trailing text allowed. -/
def hunkHeaderMatch (l : List Char) : Bool :=
  startsW "@@ -".toList l && afterHunkDigits (l.drop 4)

/-- The disqualifying substrings of src line 138. -/
def bannedSubs : List (List Char) :=
  ["```".toList, ['#'], "Here is".toList, "new file mode".toList,
   "--- /dev/null".toList, "bash".toList, "python".toList,
   "++++".toList, "...".toList]

def hasBanned (cs : List Char) : Bool :=
  bannedSubs.any (fun p => containsSub cs p)

/-- The validation conjunction of src lines 131-138: exactly five
lines of the fixed shape and none of the banned substrings anywhere. -/
def validatePatchL (content : List Char) : Bool :=
  match splitLinesL content with
  | [l0, l1, l2, l3, l4] =>
    (l0 == "--- a/README.md".toList) && (l1 == "+++ b/README.md".toList) &&
      hunkHeaderMatch l2 && startsW "-Helllo World".toList l3 &&
      startsW "+Hello World".toList l4 && !hasBanned content
  | _ => false

/-- String-level validator. -/
def validatePatch (content : String) : Bool :=
  validatePatchL content.toList

/-! ## `ai_fix_code` (src lines 60-146)

The provider loop is embedded over an oracle: one `ProviderOutcome`
per configured provider, in fallback order, describing how that
provider's single HTTP request turns out.  The trace records the
result plus the observable effects the claims talk about: how many
provider requests were issued, which backoff sleeps ran
(`time.sleep(2)`, src line 143, executed in the `except` handler),
and how many times the cleanup pipeline and the validator ran. -/

structure Issue where
  number : Nat
  title : String
  body : String
deriving DecidableEq

/-- Transport-level outcome of one provider attempt.  `timeout` and
`httpError` (non-2xx, raised by `raise_for_status`) and
`malformedBody` (the response body fails to parse,
`requests.exceptions.JSONDecodeError`) are all `RequestException`s
caught by src line 141; `success` carries the completion text. -/
inductive ProviderOutcome where
  | timeout
  | httpError (status : Nat)
  | malformedBody
  | success (body : String)
deriving DecidableEq

def isTransportFailure : ProviderOutcome → Bool
  | .success _ => false
  | _ => true

structure FixTrace where
  result : Option String
  requests : Nat
  sleeps : List Nat
  cleanups : Nat
  validations : Nat
deriving DecidableEq

/-- The hard-coded fallback patch of src lines 64-68. -/
def fallbackPatch : String :=
  "--- a/README.md\n+++ b/README.md\n@@ -1,1 +1,1 @@\n-Helllo World\n+Hello World"

/-- The provider loop of src lines 90-146: one request per configured
provider; a transport failure is caught, logged and followed by
`time.sleep(2)` before the next provider; a successful response is
stripped (src line 107), cleaned and validated, and returned when
valid, otherwise the loop continues (with no sleep); after the last
provider the function returns `None`. -/
def aiFixLoop : List ProviderOutcome → FixTrace
  | [] => ⟨none, 0, [], 0, 0⟩
  | .success body :: rest =>
    let content := cleanPatchL (pyStripL body.toList)
    if validatePatchL content then ⟨some content.asString, 1, [], 1, 1⟩
    else
      let t := aiFixLoop rest
      ⟨t.result, t.requests + 1, t.sleeps, t.cleanups + 1, t.validations + 1⟩
  | _ :: rest =>
    let t := aiFixLoop rest
    ⟨t.result, t.requests + 1, 2 :: t.sleeps, t.cleanups, t.validations⟩

/-- `ai_fix_code` (src lines 60-146): an issue whose title contains
`'Fix typo in README'` short-circuits to the hard-coded patch before
any provider interaction (src lines 62-68); otherwise the provider
loop runs. -/
def ai_fix_code (issue : Issue) (outcomes : List ProviderOutcome) : FixTrace :=
  if containsSub issue.title.toList "Fix typo in README".toList then
    ⟨some fallbackPatch, 0, [], 0, 0⟩
  else aiFixLoop outcomes

/-! ## `submit_fix` (src lines 149-199)

The external collaborators (git clone, `git apply --check`,
`git apply`, push, PR creation) are modelled by an environment of
success flags; the function emits the sequence of filesystem /
version-control events in source order, including the `finally`-block
cleanup (src lines 197-199) on every exit path.  Local operations that
do not fail in the model (checkout, writing the patch file, staging,
committing) are folded into the event stream. -/

structure SubmitEnv where
  dirExists0 : Bool
  cloneOk : Bool
  checkOk : Bool
  applyOk : Bool
  pushOk : Bool
  prOk : Bool
deriving DecidableEq

inductive SubEvent where
  | rmDir
  | cloneDir
  | writePatch
  | dryRunCheck
  | realApply
  | commitAll
  | pushBranch
  | openPr
deriving DecidableEq

/-- Whether the per-issue working directory exists after the given
event sequence, starting from the initial state. -/
def dirAfter (env : SubmitEnv) (evts : List SubEvent) : Bool :=
  evts.foldl
    (fun b e =>
      match e with
      | .rmDir => false
      | .cloneDir => true
      | _ => b)
    env.dirExists0

/-- The `finally` block of src lines 197-199:
`if os.path.exists(local_dir): shutil.rmtree(local_dir)`. -/
def withCleanup (env : SubmitEnv) (evts : List SubEvent) : List SubEvent :=
  if dirAfter env evts then evts ++ [SubEvent.rmDir] else evts

/-- `submit_fix` (src lines 149-199).  Returns the PR URL (modelled as
a fixed string, src line 192) or `None`, together with the event
sequence.  A failed dry-run check hits the inner `except` and returns
`None` (src lines 166-170) before the real apply of src line 172; any
other failure hits the outer `except` (src lines 194-196); the
`finally` cleanup runs on every path. -/
def submit_fix (env : SubmitEnv) : Option String × List SubEvent :=
  let e0 := if env.dirExists0 then [SubEvent.rmDir] else []
  if !env.cloneOk then (none, withCleanup env e0)
  else
    let e1 := e0 ++ [SubEvent.cloneDir, SubEvent.writePatch, SubEvent.dryRunCheck]
    if !env.checkOk then (none, withCleanup env e1)
    else
      let e2 := e1 ++ [SubEvent.realApply]
      if !env.applyOk then (none, withCleanup env e2)
      else
        let e3 := e2 ++ [SubEvent.commitAll, SubEvent.pushBranch]
        if !env.pushOk then (none, withCleanup env e3)
        else
          let e4 := e3 ++ [SubEvent.openPr]
          if !env.prOk then (none, withCleanup env e4)
          else (some "pr-html-url", withCleanup env e4)

/-! ## Startup credential checks (src lines 11-33)

Module-level evaluation order: building `API_CONFIGS` evaluates
`os.getenv('GROK_KEY').strip()` (src line 16), which raises
`AttributeError` when the variable is unset, before the explicit
`ValueError` checks of src lines 29-33.  Either way the process dies
at import time, before any network request. -/

structure StartupEnv where
  grokKey : Option String
  ghToken : Option String
deriving DecidableEq

inductive StartupError where
  | noneStripAttrError
  | missingGrokKey
  | missingGhToken
deriving DecidableEq

/-- The module-level configuration phase (src lines 11-33), in source
order; on success it yields the stripped bearer credential and the
GitHub token. -/
def startupChecks (env : StartupEnv) : Except StartupError (String × String) :=
  match env.grokKey with
  | none => .error .noneStripAttrError
  | some k =>
    if k == "" then .error .missingGrokKey
    else
      match env.ghToken with
      | none => .error .missingGhToken
      | some t =>
        if t == "" then .error .missingGhToken
        else .ok ((pyStripL k.toList).asString, t)

/-- Oracle for the `__main__` phase (src lines 202-238): verdicts of
the API self-test and the issue fetch, the fetched issues, and the
per-issue provider outcomes. -/
structure RunOracle where
  testOk : Bool
  fetchOk : Bool
  issues : List Issue
  provOutcomes : List (List ProviderOutcome)

structure RunResult where
  networkRequests : Nat
  fatalStartup : Bool
  exitCode : Nat
deriving DecidableEq

/-- Network requests of the run: none at all when the startup checks
raise; otherwise one for `test_grok_api` (src line 205), one for the
issue fetch (src line 212), and the provider requests of each of the
first three issues (src lines 220-225).  Submission-phase network
activity is modelled separately in `submit_fix`. -/
def runProgram (env : StartupEnv) (o : RunOracle) : RunResult :=
  match startupChecks env with
  | .error _ => ⟨0, true, 1⟩
  | .ok _ =>
    if !o.testOk then ⟨1, false, 1⟩
    else if !o.fetchOk then ⟨2, false, 1⟩
    else
      let reqs := ((o.issues.take 3).zip o.provOutcomes).foldl
        (fun acc p => acc + (ai_fix_code p.1 p.2).requests) 0
      ⟨2 + reqs, false, 0⟩

/-! ## Patch cache

Modelled from the spec: the Patch Cache of spec section 4.2 (its
fingerprint, `get`/`put` contract and write-through on acceptance) has
no code under `src/`; `src/issue_fixer.py` contains no cache.  The
persistent flat key-to-value store is modelled as an association list
threaded through the run, with `generate` abstracted as an oracle
returning the accepted patch text (or nothing) for an issue. -/

/-- Modelled from the spec: fingerprint = `title ++ "-" ++ body[0:50]`
(spec section 4.2). -/
def fingerprint (i : Issue) : String :=
  i.title ++ "-" ++ (i.body.toList.take 50).asString

/-- Modelled from the spec: `get(fingerprint) -> PatchText | absent`. -/
def cacheGet : List (String × String) → String → Option String
  | [], _ => none
  | (k, v) :: t, key => if k == key then some v else cacheGet t key

/-- Modelled from the spec: `put(fingerprint, PatchText)`. -/
def cachePut (c : List (String × String)) (k v : String) : List (String × String) :=
  (k, v) :: c

/-- Modelled from the spec: consult the cache first; on a miss call
`generate` (one consultation counted) and write through on an accepted
patch.  Returns the served patch, the updated store, and how many
times `generate` was called. -/
def generateCached (gen : Issue → Option String) (c : List (String × String))
    (i : Issue) : Option String × List (String × String) × Nat :=
  match cacheGet c (fingerprint i) with
  | some p => (some p, c, 0)
  | none =>
    match gen i with
    | some p => (some p, cachePut c (fingerprint i) p, 1)
    | none => (none, c, 1)

/-- Two requests served in sequence through the persistent store
(the second run reloads the store the first run wrote).  Returns both
served results and the total number of `generate` calls. -/
def processTwo (gen : Issue → Option String) (c : List (String × String))
    (i1 i2 : Issue) : Option String × Option String × Nat :=
  let r1 := generateCached gen c i1
  let r2 := generateCached gen r1.2.1 i2
  (r1.1, r2.1, r1.2.2 + r2.2.2)

/-! ## Helper lemmas -/

theorem startsW_self_append (p r : List Char) : startsW p (p ++ r) = true := by
  induction p with
  | nil => rfl
  | cons c t ih => simp [startsW, ih]

theorem startsW_ex (p l : List Char) (h : startsW p l = true) : ∃ r, l = p ++ r := by
  induction p generalizing l with
  | nil => exact ⟨l, rfl⟩
  | cons c t ih =>
    cases l with
    | nil => simp [startsW] at h
    | cons d l2 =>
      simp only [startsW, Bool.and_eq_true, beq_iff_eq] at h
      obtain ⟨r, hr⟩ := ih l2 h.2
      exact ⟨r, by simp [h.1, hr]⟩

theorem startsW_mono (p q l : List Char) (hp : startsW p l = true)
    (hq : startsW q l = true) (hl : p.length ≤ q.length) : startsW p q = true := by
  induction p generalizing q l with
  | nil => rfl
  | cons c t ih =>
    cases q with
    | nil => simp at hl
    | cons d q2 =>
      cases l with
      | nil => simp [startsW] at hp
      | cons e l2 =>
        simp only [startsW, Bool.and_eq_true, beq_iff_eq] at hp hq
        simp only [List.length_cons, Nat.add_le_add_iff_right] at hl
        simp only [startsW, Bool.and_eq_true, beq_iff_eq]
        exact ⟨hp.1.trans hq.1.symm, ih q2 l2 hp.2 hq.2 hl⟩

theorem hasNl_append (l r : List Char) : hasNl (l ++ r) = (hasNl l || hasNl r) := by
  induction l with
  | nil => simp [hasNl]
  | cons c t ih => simp [hasNl, ih, Bool.or_assoc]

theorem dropToNl_append (l r : List Char) (h : '\n' ∉ l) :
    dropToNl (l ++ '\n' :: r) = r := by
  induction l with
  | nil => simp [dropToNl]
  | cons c t ih =>
    have hc : c ≠ '\n' := fun hh => h (hh ▸ List.mem_cons_self c t)
    have ht : '\n' ∉ t := fun hh => h (List.mem_cons_of_mem c hh)
    simp only [List.cons_append, dropToNl, beq_iff_eq, if_neg hc]
    exact ih ht

theorem validate_shape (cs : List Char) (h : validatePatchL cs = true) :
    ∃ l2 l3 l4,
      splitLinesL cs =
        ["--- a/README.md".toList, "+++ b/README.md".toList, l2, l3, l4] ∧
      hunkHeaderMatch l2 = true ∧
      startsW "-Helllo World".toList l3 = true ∧
      startsW "+Hello World".toList l4 = true ∧
      hasBanned cs = false := by
  unfold validatePatchL at h
  split at h
  · rename_i l0 l1 l2 l3 l4 heq
    simp only [Bool.and_eq_true, beq_iff_eq, Bool.not_eq_eq_eq_not, Bool.not_true] at h
    obtain ⟨⟨⟨⟨⟨h0, h1⟩, h2⟩, h3⟩, h4⟩, h5⟩ := h
    exact ⟨l2, l3, l4, by rw [heq, h0, h1], h2, h3, h4, h5⟩
  · cases h

theorem hunk_not_header (l : List Char) (h : hunkHeaderMatch l = true) :
    startsW "--- a/".toList l = false := by
  have hat : startsW "@@ -".toList l = true := by
    unfold hunkHeaderMatch at h
    exact (Bool.and_eq_true _ _ |>.mp h).1
  obtain ⟨r, hr⟩ := startsW_ex _ _ hat
  subst hr
  rfl

theorem aiFixLoop_cons_success (body : String) (rest : List ProviderOutcome) :
    aiFixLoop (.success body :: rest) =
      (if validatePatchL (cleanPatchL (pyStripL body.toList)) then
        ⟨some (cleanPatchL (pyStripL body.toList)).asString, 1, [], 1, 1⟩
      else
        ⟨(aiFixLoop rest).result, (aiFixLoop rest).requests + 1, (aiFixLoop rest).sleeps,
          (aiFixLoop rest).cleanups + 1, (aiFixLoop rest).validations + 1⟩) := rfl

theorem aiFixLoop_cons_timeout (rest : List ProviderOutcome) :
    aiFixLoop (.timeout :: rest) =
      ⟨(aiFixLoop rest).result, (aiFixLoop rest).requests + 1, 2 :: (aiFixLoop rest).sleeps,
        (aiFixLoop rest).cleanups, (aiFixLoop rest).validations⟩ := rfl

theorem aiFixLoop_cons_httpError (status : Nat) (rest : List ProviderOutcome) :
    aiFixLoop (.httpError status :: rest) =
      ⟨(aiFixLoop rest).result, (aiFixLoop rest).requests + 1, 2 :: (aiFixLoop rest).sleeps,
        (aiFixLoop rest).cleanups, (aiFixLoop rest).validations⟩ := rfl

theorem aiFixLoop_cons_malformed (rest : List ProviderOutcome) :
    aiFixLoop (.malformedBody :: rest) =
      ⟨(aiFixLoop rest).result, (aiFixLoop rest).requests + 1, 2 :: (aiFixLoop rest).sleeps,
        (aiFixLoop rest).cleanups, (aiFixLoop rest).validations⟩ := rfl

theorem toList_asString (l : List Char) : (List.asString l).toList = l := rfl

theorem aiFixLoop_some (outcomes : List ProviderOutcome) (patch : String)
    (h : (aiFixLoop outcomes).result = some patch) :
    validatePatchL patch.toList = true := by
  induction outcomes with
  | nil => cases h
  | cons o rest ih =>
    cases o with
    | success body =>
      rw [aiFixLoop_cons_success] at h
      generalize hc : cleanPatchL (pyStripL body.toList) = content at h
      by_cases hv : validatePatchL content = true
      · rw [if_pos hv] at h
        cases h
        rw [toList_asString]
        exact hv
      · rw [if_neg hv] at h
        exact ih h
    | timeout => rw [aiFixLoop_cons_timeout] at h; exact ih h
    | httpError status => rw [aiFixLoop_cons_httpError] at h; exact ih h
    | malformedBody => rw [aiFixLoop_cons_malformed] at h; exact ih h

theorem aiFixLoop_allFail (outcomes : List ProviderOutcome)
    (h : ∀ o ∈ outcomes, isTransportFailure o = true) :
    aiFixLoop outcomes = ⟨none, outcomes.length, List.replicate outcomes.length 2, 0, 0⟩ := by
  induction outcomes with
  | nil => rfl
  | cons o rest ih =>
    have ho : isTransportFailure o = true := h o (List.mem_cons_self o rest)
    have hrest := ih fun x hx => h x (List.mem_cons_of_mem o hx)
    cases o with
    | success body => simp [isTransportFailure] at ho
    | timeout =>
      rw [aiFixLoop_cons_timeout, hrest]
      simp [List.replicate_succ]
    | httpError status =>
      rw [aiFixLoop_cons_httpError, hrest]
      simp [List.replicate_succ]
    | malformedBody =>
      rw [aiFixLoop_cons_malformed, hrest]
      simp [List.replicate_succ]

/-! ## Claims -/

/-- C2 counterexample: the normalizer is not idempotent.  The `++++`
collapse of src line 116 scans left to right, so eight plus signs
become six on the first pass and five on the second:
`normalize(normalize(x)) != normalize(x)` at `x = "++++++++"`. -/
theorem c2_counterexample :
    cleanPatch (cleanPatch "++++++++") ≠ cleanPatch "++++++++" := by decide

/-- C2 (amended): idempotency fails for arbitrary raw text, but the
normalizer is idempotent on the canonical already-normalized 5-line
patch document: `normalize(P) = P`, hence
`normalize(normalize(P)) = normalize(P)`. -/
theorem c2_amended_idempotent :
    cleanPatch fallbackPatch = fallbackPatch ∧
      cleanPatch (cleanPatch fallbackPatch) = cleanPatch fallbackPatch := by
  constructor <;> rfl

/-- C3: strict validation accepts exactly the canonical 5-line
document and rejects the variant with the removed/added lines
swapped. -/
theorem c3_strict_accept_reject :
    validatePatch
        "--- a/README.md\n+++ b/README.md\n@@ -1,1 +1,1 @@\n-Helllo World\n+Hello World" =
      true ∧
    validatePatch
        "--- a/README.md\n+++ b/README.md\n@@ -1,1 +1,1 @@\n+Hello World\n-Helllo World" =
      false := by
  constructor <;> rfl

/-- C4: any candidate containing a fence marker, a 4-plus-sign hunk
marker, or more than one `--- a/` header line is rejected by the
validator, whatever the rest of its structure. -/
theorem c4_reject (content : String)
    (h : containsSub content.toList "```".toList = true ∨
         containsSub content.toList "++++".toList = true ∨
         2 ≤ (splitLinesL content.toList).countP (fun l => startsW "--- a/".toList l)) :
    validatePatch content = false := by
  cases hb : validatePatch content
  · rfl
  · exfalso
    obtain ⟨l2, l3, l4, hsplit, hhunk, h3, h4, hban⟩ := validate_shape content.toList hb
    simp only [hasBanned, bannedSubs, List.any_cons, List.any_nil, Bool.or_eq_false_iff] at hban
    rcases h with h | h | h
    · rw [hban.1] at h
      exact Bool.false_ne_true h
    · rw [hban.2.2.2.2.2.2.2.1] at h
      exact Bool.false_ne_true h
    · have h2f : startsW "--- a/".toList l2 = false := hunk_not_header l2 hhunk
      have h3f : startsW "--- a/".toList l3 = false := by
        cases hs : startsW "--- a/".toList l3
        · rfl
        · exact absurd (startsW_mono _ _ _ hs h3 (by decide)) (by decide)
      have h4f : startsW "--- a/".toList l4 = false := by
        cases hs : startsW "--- a/".toList l4
        · rfl
        · exact absurd (startsW_mono _ _ _ hs h4 (by decide)) (by decide)
      rw [hsplit] at h
      simp only [List.countP_cons, List.countP_nil] at h
      rw [h2f, h3f, h4f] at h
      rw [(by decide : startsW "--- a/".toList "--- a/README.md".toList = true)] at h
      rw [(by decide : startsW "--- a/".toList "+++ b/README.md".toList = false)] at h
      simp at h

/-- Witness for C4 at a concrete fenced candidate. -/
theorem c4_witness : validatePatch "x```y" = false :=
  c4_reject "x```y" (Or.inl (by decide))

/-- C5 counterexample: on the text `"x\n--- a/evil.py\n+++ b/evil.py"`
the header-rewrite step (src lines 114-115) changes nothing — both
regexes are anchored at the start of the whole text — so afterwards
the text does not contain exactly one `--- a/README.md` header. -/
theorem c5_counterexample :
    ¬ ((splitLinesL (headerRewrite "x\n--- a/evil.py\n+++ b/evil.py").toList).countP
        (fun l => l == "--- a/README.md".toList) = 1) := by decide

theorem subHeaderLine_noop (pre repl l : List Char) (h : startsW pre l = false) :
    subHeaderLine pre repl l = l := by
  unfold subHeaderLine
  rw [h]
  simp

theorem subHeaderLine_fires (pre repl l r : List Char) (h : '\n' ∉ pre ++ l) :
    subHeaderLine pre repl ((pre ++ l) ++ '\n' :: r) = repl ++ '\n' :: r := by
  unfold subHeaderLine
  have h1 : startsW pre ((pre ++ l) ++ '\n' :: r) = true := by
    rw [List.append_assoc]
    exact startsW_self_append _ _
  have h2 : hasNl ((pre ++ l) ++ '\n' :: r) = true := by
    rw [hasNl_append]
    simp [hasNl]
  rw [h1, h2, dropToNl_append _ _ h]
  simp

/-- C5 (amended): the header-rewrite step only rewrites a header line
at the very start of the text (the regexes of src lines 114-115 are
anchored at position 0 with count 1): a text beginning with a
`--- a/...` (resp. `+++ b/...`) first line has that line rewritten to
the README.md header, and header lines elsewhere are untouched; the
step does not in general leave exactly one header pair. -/
theorem c5_amended_rewrite (hd1 hd2 rest1 rest2 : List Char)
    (ha : startsW "--- a/".toList hd1 = true) (hna : '\n' ∉ hd1)
    (hb : startsW "+++ b/".toList hd2 = true) (hnb : '\n' ∉ hd2) :
    headerRewriteL (hd1 ++ '\n' :: rest1) = "--- a/README.md\n".toList ++ rest1 ∧
      headerRewriteL (hd2 ++ '\n' :: rest2) = "+++ b/README.md\n".toList ++ rest2 := by
  constructor
  · obtain ⟨r1, hr1⟩ := startsW_ex _ _ ha
    subst hr1
    unfold headerRewriteL
    rw [subHeaderLine_noop "+++ b/".toList "+++ b/README.md".toList
      (("--- a/".toList ++ r1) ++ '\n' :: rest1) (by rfl)]
    rw [subHeaderLine_fires "--- a/".toList "--- a/README.md".toList r1 rest1 hna]
    rfl
  · obtain ⟨r2, hr2⟩ := startsW_ex _ _ hb
    subst hr2
    unfold headerRewriteL
    rw [subHeaderLine_fires "+++ b/".toList "+++ b/README.md".toList r2 rest2 hnb]
    rw [subHeaderLine_noop "--- a/".toList "--- a/README.md".toList
      ("+++ b/README.md".toList ++ '\n' :: rest2) (by rfl)]
    rfl

/-- Witness for C5 (amended) at concrete header lines. -/
theorem c5_witness :
    headerRewriteL ("--- a/x".toList ++ '\n' :: "y".toList) =
        "--- a/README.md\n".toList ++ "y".toList ∧
      headerRewriteL ("+++ b/x".toList ++ '\n' :: "y".toList) =
        "+++ b/README.md\n".toList ++ "y".toList :=
  c5_amended_rewrite "--- a/x".toList "+++ b/x".toList "y".toList "y".toList
    (by decide) (by decide) (by decide) (by decide)

/-- C9: an issue whose title contains `'Fix typo in README'` gets the
hard-coded 5-line patch immediately: no provider request, no backoff,
no cleanup, no validation. -/
theorem c9_fallback (issue : Issue) (outcomes : List ProviderOutcome)
    (h : containsSub issue.title.toList "Fix typo in README".toList = true) :
    ai_fix_code issue outcomes = ⟨some fallbackPatch, 0, [], 0, 0⟩ := by
  unfold ai_fix_code
  rw [h]
  simp

/-- Witness for C9 at a concrete matching title. -/
theorem c9_witness :
    ai_fix_code ⟨7, "Fix typo in README please", "b"⟩ [ProviderOutcome.timeout] =
      ⟨some fallbackPatch, 0, [], 0, 0⟩ :=
  c9_fallback _ _ (by decide)

/-- C6: when every configured provider attempt ends in a transport
failure, each failure is caught, is followed by the fixed backoff
`time.sleep(2)`, and after the last provider `ai_fix_code` returns
`None` (the NoProviderSucceeded signal) — no exception escapes, the
function is total. -/
theorem c6_all_fail (issue : Issue) (outcomes : List ProviderOutcome)
    (ht : containsSub issue.title.toList "Fix typo in README".toList = false)
    (hf : ∀ o ∈ outcomes, isTransportFailure o = true) :
    ai_fix_code issue outcomes =
      ⟨none, outcomes.length, List.replicate outcomes.length 2, 0, 0⟩ := by
  unfold ai_fix_code
  rw [ht]
  simp only [Bool.false_eq_true, if_false]
  exact aiFixLoop_allFail outcomes hf

/-- Witness for C6: one failing provider, one backoff of 2, result
`None`. -/
theorem c6_witness :
    ai_fix_code ⟨1, "improve docs", ""⟩ [ProviderOutcome.timeout] = ⟨none, 1, [2], 0, 0⟩ :=
  c6_all_fail ⟨1, "improve docs", ""⟩ [ProviderOutcome.timeout] (by decide) (by decide)

/-- C10: every patch `ai_fix_code` ever returns is exactly five lines:
the two README.md headers, a hunk header, a line starting with
`-Helllo World` and a line starting with `+Hello World`. -/
theorem c10_accepted_shape (issue : Issue) (outcomes : List ProviderOutcome)
    (patch : String) (h : (ai_fix_code issue outcomes).result = some patch) :
    ∃ l2 l3 l4,
      splitLinesL patch.toList =
        ["--- a/README.md".toList, "+++ b/README.md".toList, l2, l3, l4] ∧
      hunkHeaderMatch l2 = true ∧ startsW "-Helllo World".toList l3 = true ∧
      startsW "+Hello World".toList l4 = true := by
  have hval : validatePatchL patch.toList = true := by
    unfold ai_fix_code at h
    cases ht : containsSub issue.title.toList "Fix typo in README".toList
    · rw [ht] at h
      simp only [Bool.false_eq_true, if_false] at h
      exact aiFixLoop_some outcomes patch h
    · rw [ht] at h
      simp only [if_true] at h
      have hp : fallbackPatch = patch := by
        simpa using h
      rw [← hp]
      rfl
  obtain ⟨l2, l3, l4, hsplit, hhunk, h3, h4, _⟩ := validate_shape patch.toList hval
  exact ⟨l2, l3, l4, hsplit, hhunk, h3, h4⟩

/-- Witness for C10: the fallback path returns the canonical patch,
which has the required 5-line shape. -/
theorem c10_witness :
    ∃ l2 l3 l4,
      splitLinesL fallbackPatch.toList =
        ["--- a/README.md".toList, "+++ b/README.md".toList, l2, l3, l4] ∧
      hunkHeaderMatch l2 = true ∧ startsW "-Helllo World".toList l3 = true ∧
      startsW "+Hello World".toList l4 = true :=
  c10_accepted_shape ⟨42, "Fix typo in README", ""⟩ [] fallbackPatch rfl

/-- C7: the working directory never survives `submit_fix` (the
`finally` cleanup runs on every exit path), and when the dry-run apply
check fails the real apply is never invoked and the call returns
`None`. -/
theorem c7_cleanup (env : SubmitEnv) :
    dirAfter env (submit_fix env).2 = false ∧
      (env.checkOk = false →
        SubEvent.realApply ∉ (submit_fix env).2 ∧ (submit_fix env).1 = none) := by
  obtain ⟨d, c, k, a, p, r⟩ := env
  cases d <;> cases c <;> cases k <;> cases a <;> cases p <;> cases r <;> decide

/-- Witness for C7 at a concrete failing dry-run check. -/
theorem c7_witness :
    dirAfter ⟨false, true, false, true, true, true⟩
        (submit_fix ⟨false, true, false, true, true, true⟩).2 = false ∧
      SubEvent.realApply ∉ (submit_fix ⟨false, true, false, true, true, true⟩).2 ∧
      (submit_fix ⟨false, true, false, true, true, true⟩).1 = none :=
  ⟨(c7_cleanup ⟨false, true, false, true, true, true⟩).1,
    ((c7_cleanup ⟨false, true, false, true, true, true⟩).2 rfl).1,
    ((c7_cleanup ⟨false, true, false, true, true, true⟩).2 rfl).2⟩

/-- C8: when the provider credential is absent the run dies in the
module-level configuration phase — exit status 1, zero network
requests — so the missing credential is never discovered
per-request. -/
theorem c8_failfast (env : StartupEnv) (o : RunOracle) (h : env.grokKey = none) :
    runProgram env o = ⟨0, true, 1⟩ := by
  obtain ⟨g, t⟩ := env
  obtain rfl : g = none := h
  rfl

/-- Witness for C8 at a concrete environment with the credential
unset. -/
theorem c8_witness :
    runProgram ⟨none, some "tok"⟩ ⟨true, true, [], []⟩ = ⟨0, true, 1⟩ :=
  c8_failfast ⟨none, some "tok"⟩ ⟨true, true, [], []⟩ rfl

/-- C1 (cache, modelled from the spec): for two issues with the same
title and the same first 50 body characters, processing both through
the persistent store calls `generate` at most once — provided the
first call yields an accepted patch — and the second request is
served the same patch from the cache. -/
theorem c1_cache_hit (gen : Issue → Option String) (c : List (String × String))
    (i1 i2 : Issue) (p : String)
    (ht : i1.title = i2.title) (hbp : i1.body.toList.take 50 = i2.body.toList.take 50)
    (hg : gen i1 = some p) :
    (processTwo gen c i1 i2).2.2 ≤ 1 ∧
      (processTwo gen c i1 i2).2.1 = (processTwo gen c i1 i2).1 := by
  have hfp : fingerprint i1 = fingerprint i2 := by
    unfold fingerprint
    rw [ht, hbp]
  cases hg1 : cacheGet c (fingerprint i1) with
  | some v =>
    have e1 : generateCached gen c i1 = (some v, c, 0) := by
      unfold generateCached
      rw [hg1]
    have hg2 : cacheGet c (fingerprint i2) = some v := by
      rw [← hfp]
      exact hg1
    have e2 : generateCached gen c i2 = (some v, c, 0) := by
      unfold generateCached
      rw [hg2]
    simp [processTwo, e1, e2]
  | none =>
    have e1 : generateCached gen c i1 = (some p, cachePut c (fingerprint i1) p, 1) := by
      unfold generateCached
      rw [hg1, hg]
    have hg2 : cacheGet (cachePut c (fingerprint i1) p) (fingerprint i2) = some p := by
      unfold cachePut cacheGet
      rw [← hfp]
      simp
    have e2 : generateCached gen (cachePut c (fingerprint i1) p) i2 =
        (some p, cachePut c (fingerprint i1) p, 0) := by
      unfold generateCached
      rw [hg2]
    simp [processTwo, e1, e2]

/-- Witness for C1 at concrete cache-equivalent issues. -/
theorem c1_witness :
    (processTwo (fun _ => some "P") [] ⟨1, "t", "b"⟩ ⟨2, "t", "b"⟩).2.2 ≤ 1 ∧
      (processTwo (fun _ => some "P") [] ⟨1, "t", "b"⟩ ⟨2, "t", "b"⟩).2.1 =
        (processTwo (fun _ => some "P") [] ⟨1, "t", "b"⟩ ⟨2, "t", "b"⟩).1 :=
  c1_cache_hit (fun _ => some "P") [] ⟨1, "t", "b"⟩ ⟨2, "t", "b"⟩ "P" rfl rfl rfl

end IssueFixer
